import Mathlib

/-!
Shallow embedding of the Calorie-Tracker single-page app (src/src/App.tsx).

JavaScript numbers are modelled as rationals (ℚ); `x.toFixed(1)` followed by
the unary `+` coercion is modelled as exact rounding to one decimal place with
the ECMAScript tie-breaking rule (ties go to the larger value, which matches
Mathlib round, defined as the floor of x + 1/2).

The JSON text layer is abstracted to a JSON value AST: `JSON.stringify`
produces the AST of the written text and `JSON.parse` of well-formed text
yields that AST back (malformed text is modelled as `Option.none`).
-/

/-- One logged food item: the `FoodItem` interface of App.tsx
(name plus five numeric fields). -/
structure FoodItem where
  name : String
  calories : ℚ
  protein : ℚ
  carbs : ℚ
  fat : ℚ
  weight : ℚ
deriving DecidableEq, Repr

/-- JSON values, as produced by `JSON.parse`. Objects are association lists
with distinct keys (parse collapses duplicate keys). -/
inductive JValue where
  | null : JValue
  | bool : Bool → JValue
  | num : ℚ → JValue
  | str : String → JValue
  | arr : List JValue → JValue
  | obj : List (String × JValue) → JValue

/-- The JavaScript `typeof` operator on a JSON value. -/
def jsTypeof : JValue → String
  | .null => "object"
  | .bool _ => "boolean"
  | .num _ => "number"
  | .str _ => "string"
  | .arr _ => "object"
  | .obj _ => "object"

/-- Own-property lookup `j[f]`: objects look the field up, every other
non-null value has none of the six FoodItem fields (the result is
`undefined`, modelled as `none`). `null` is excluded by the caller because
property access on `null` throws. -/
def getField : JValue → String → Option JValue
  | .obj fs, f => List.lookup f fs
  | _, _ => none

/-- `typeof j[f]` for non-null `j`; absent fields give "undefined". -/
def typeofField (j : JValue) (f : String) : String :=
  match getField j f with
  | some v => jsTypeof v
  | none => "undefined"

/-- The per-item structure check inside `importDiet` (App.tsx lines 49-56):
six `typeof` tests joined by `&&`. Property access on a `null` item throws a
TypeError, modelled as `Except.error`. -/
def checkItem : JValue → Except Unit Bool
  | .null => .error ()
  | j => .ok (typeofField j "name" == "string"
      && typeofField j "calories" == "number"
      && typeofField j "protein" == "number"
      && typeofField j "carbs" == "number"
      && typeofField j "fat" == "number"
      && typeofField j "weight" == "number")

/-- `Array.prototype.every` over the items: left to right, stops at the
first `false`, propagates a thrown TypeError. -/
def everyCheck : List JValue → Except Unit Bool
  | [] => .ok true
  | x :: xs =>
    match checkItem x with
    | .error e => .error e
    | .ok false => .ok false
    | .ok true => everyCheck xs

/-- Reading the six fields of a validated item back into a `FoodItem`
(the imported objects are used directly as FoodItem values in the source;
validation guarantees each field is present with the right type, so the
fallback defaults are never reached on validated input). -/
def getNumField (j : JValue) (f : String) : ℚ :=
  match getField j f with
  | some (.num q) => q
  | _ => 0

def getStrField (j : JValue) (f : String) : String :=
  match getField j f with
  | some (.str s) => s
  | _ => ""

def extractItem (j : JValue) : FoodItem :=
  { name := getStrField j "name"
    calories := getNumField j "calories"
    protein := getNumField j "protein"
    carbs := getNumField j "carbs"
    fat := getNumField j "fat"
    weight := getNumField j "weight" }

/-- `JSON.stringify` of one FoodItem, at the AST level: an object with the
six fields in declaration order. -/
def itemToJson (i : FoodItem) : JValue :=
  .obj [("name", .str i.name), ("calories", .num i.calories),
        ("protein", .num i.protein), ("carbs", .num i.carbs),
        ("fat", .num i.fat), ("weight", .num i.weight)]

/-- `exportDiet` serialization (App.tsx line 27): the JSON array written to
the exported file, at the AST level. The 2-space indentation of the text is
cosmetic and not part of the AST. -/
def serialize (items : List FoodItem) : JValue :=
  .arr (items.map itemToJson)

/-- Outcome of the import pipeline body (App.tsx lines 44-66). -/
inductive ImportOutcome where
  | replaced : List FoodItem → ImportOutcome
  | parseFailed : ImportOutcome
  | invalidFormat : ImportOutcome
deriving DecidableEq, Repr

/-- The `reader.onload` body of `importDiet`: `JSON.parse` (malformed text
is `none`), then `.every` with the six typeof tests. Calling `.every` on a
parsed value that is not an array throws a TypeError, caught by the same
`catch` as a parse failure; so does a `null` entry reached by the check. -/
def deserializeJ : Option JValue → ImportOutcome
  | none => .parseFailed
  | some (.arr xs) =>
    match everyCheck xs with
    | .error _ => .parseFailed
    | .ok true => .replaced (xs.map extractItem)
    | .ok false => .invalidFormat
  | some _ => .parseFailed

/-- The React state of App.tsx that the ledger, import and add-food paths
touch, plus `outstanding`, the number of nutrition-lookup promises in
flight (bookkeeping for the single-flight property; the source keeps it
implicitly as un-settled `fetchNutritionInfo` promises). -/
structure AppState where
  foodName : String
  quantity : String
  unitSel : String
  foodItems : List FoodItem
  isLoading : Bool
  error : String
  suggestions : List String
  showSuggestions : Bool
  outstanding : Nat
deriving DecidableEq, Repr

/-- The error message of the `catch` branch of `importDiet` (line 64). -/
def importParseMsg : String := "Failed to import diet plan. Please check the file format."

/-- The error message of the failed-validation branch (line 60). -/
def importInvalidMsg : String := "Invalid diet plan format"

/-- The error message of the empty-name guard of `handleAddFood` (line 166). -/
def emptyNameMsg : String := "Please enter a food name"

/-- The error message of the `catch` branch of `fetchNutritionInfo` (line 142). -/
def fetchFailMsg : String := "Failed to fetch nutrition information. Please try again."

/-- `importDiet` as a state transition: content is the parse result of the
selected file text (`none` when `JSON.parse` throws). -/
def importDiet (st : AppState) (content : Option JValue) : AppState :=
  match deserializeJ content with
  | .replaced items => { st with foodItems := items }
  | .parseFailed => { st with error := importParseMsg }
  | .invalidFormat => { st with error := importInvalidMsg }

/-- `+(x).toFixed(1)`: round to one decimal place, ties to the larger value
(Mathlib round is the floor of x + 1/2, matching ECMAScript toFixed). -/
def round1 (q : ℚ) : ℚ := (round (10 * q) : ℤ) / 10

/-- Running totals: one step of the `foodItems.reduce` at App.tsx lines
189-200. Calories accumulate exactly; protein, carbs, fat and weight are
rounded to one decimal place after each addition. -/
structure Totals where
  calories : ℚ
  protein : ℚ
  carbs : ℚ
  fat : ℚ
  weight : ℚ
deriving DecidableEq, Repr

def totalsStep (acc : Totals) (item : FoodItem) : Totals :=
  { calories := acc.calories + item.calories
    protein := round1 (acc.protein + item.protein)
    carbs := round1 (acc.carbs + item.carbs)
    fat := round1 (acc.fat + item.fat)
    weight := round1 (acc.weight + item.weight) }

def zeroTotals : Totals :=
  { calories := 0, protein := 0, carbs := 0, fat := 0, weight := 0 }

/-- The `totals` value computed on every render (App.tsx lines 189-200). -/
def totals (items : List FoodItem) : Totals :=
  items.foldl totalsStep zeroTotals

/-- Plain field-wise sums of a list of entries (no rounding anywhere). -/
def sumTotals (items : List FoodItem) : Totals :=
  { calories := (items.map FoodItem.calories).sum
    protein := (items.map FoodItem.protein).sum
    carbs := (items.map FoodItem.carbs).sum
    fat := (items.map FoodItem.fat).sum
    weight := (items.map FoodItem.weight).sum }

/-- Modelled from the spec wording of the Totals invariant: the field-wise
sum of the entries with protein, carbs, fat and weight rounded to one
decimal place and calories unrounded. Used to compare the spec reading of
`totals` against the source reduce. -/
def specTotals (items : List FoodItem) : Totals :=
  { calories := (sumTotals items).calories
    protein := round1 (sumTotals items).protein
    carbs := round1 (sumTotals items).carbs
    fat := round1 (sumTotals items).fat
    weight := round1 (sumTotals items).weight }

/-- The test `!s.trim()` of the source: a string is blank exactly when every
character is whitespace, which is when `s.trim()` is the empty string (the
only falsy string). -/
def isBlank (s : String) : Bool := s.data.all Char.isWhitespace

/-- Events of the add-food workflow. `clickAdd` is a click on the Add button
(App.tsx line 259, `disabled={isLoading}` at line 260, handler
`handleAddFood` at lines 164-180); the lookup events deliver the settled
`fetchNutritionInfo` promise (success value or caught failure). -/
inductive AddEvent where
  | clickAdd : AddEvent
  | lookupSuccess : FoodItem → AddEvent
  | lookupFailure : AddEvent
  | editQuery : String → AddEvent

/-- Body of `handleAddFood` up to the suspension point inside
`fetchNutritionInfo` (lines 164-171 + 110-113): the empty-name guard, then
`setIsLoading(true)` and `setError` with the empty string and the provider request is issued.
The Bool records whether a provider call was issued. -/
def handleAddFoodStart (st : AppState) : AppState × Bool :=
  if isBlank st.foodName then
    ({ st with error := emptyNameMsg }, false)
  else
    ({ st with isLoading := true, error := "", outstanding := st.outstanding + 1 }, true)

/-- One step of the add-food workflow. A click on the disabled button does
nothing (`disabled={isLoading}`); a settled lookup can only arrive while a
request is outstanding. On success (lines 172-175 and the finally block at
line 146) the item is appended, the query and suggestions are cleared and
loading ends; on failure (lines 141-147) the error is set and loading ends
with the ledger untouched. -/
def addStep (st : AppState) : AddEvent → AppState
  | .clickAdd => if st.isLoading then st else (handleAddFoodStart st).1
  | .lookupSuccess item =>
    if st.outstanding = 0 then st
    else
      { st with foodItems := st.foodItems ++ [item], foodName := "",
                suggestions := [], showSuggestions := false,
                isLoading := false, outstanding := st.outstanding - 1 }
  | .lookupFailure =>
    if st.outstanding = 0 then st
    else
      { st with error := fetchFailMsg, isLoading := false,
                outstanding := st.outstanding - 1 }
  | .editQuery q => { st with foodName := q }

/-- The initial React state (App.tsx lines 17-24). -/
def initState : AppState :=
  { foodName := "", quantity := "100", unitSel := "grams", foodItems := [],
    isLoading := false, error := "", suggestions := [],
    showSuggestions := false, outstanding := 0 }

/-- Run a sequence of add-workflow events. -/
def runAdd (st : AppState) (es : List AddEvent) : AppState :=
  es.foldl addStep st

/-- State of the debounced suggestion flow: the current query, the shown
suggestions, the pending debounce timer (carrying the query text the effect
closure captured), the multiset of issued-but-unanswered suggestion
requests, and a log of every request ever issued. -/
structure SugState where
  foodName : String
  suggestions : List String
  showSuggestions : Bool
  pendingTimer : Option String
  inFlight : List String
  issuedLog : List String
deriving DecidableEq, Repr

/-- Events of the suggestion flow: an edit of the query input (which
re-runs the effect at App.tsx lines 150-161, whose cleanup clears the old
timer before the new timer is set), the firing of the pending debounce
timer, and the arrival of a response for an issued request (the success
payload is the suggestion list, `none` is a caught failure). -/
inductive SugEvent where
  | setQuery : String → SugEvent
  | timerFire : SugEvent
  | response : String → Option (List String) → SugEvent

/-- One step of the suggestion flow (App.tsx lines 70-108 and 150-161).
On `setQuery q` the effect cleanup cancels the outstanding timer and a new
timer capturing `q` is started. On timer expiry with a non-empty captured
query, `fetchSuggestions` runs: blank-but-nonempty queries clear the
suggestions and issue nothing, otherwise the request is issued; an empty
captured query clears suggestions and hides the dropdown. A response for an
issued request writes the suggestion state unconditionally - the source has
no staleness guard. -/
def sugStep (st : SugState) : SugEvent → SugState
  | .setQuery q => { st with foodName := q, pendingTimer := some q }
  | .timerFire =>
    match st.pendingTimer with
    | none => st
    | some q =>
      if q = "" then
        { st with pendingTimer := none, suggestions := [], showSuggestions := false }
      else if isBlank q then
        { st with pendingTimer := none, suggestions := [] }
      else
        { st with pendingTimer := none, inFlight := q :: st.inFlight,
                  issuedLog := st.issuedLog ++ [q] }
  | .response q r =>
    if q ∈ st.inFlight then
      match r with
      | some names =>
        { st with inFlight := st.inFlight.erase q, suggestions := names,
                  showSuggestions := true }
      | none =>
        { st with inFlight := st.inFlight.erase q, suggestions := [] }
    else st

/-- The initial suggestion-flow state. -/
def initSug : SugState :=
  { foodName := "", suggestions := [], showSuggestions := false,
    pendingTimer := none, inFlight := [], issuedLog := [] }

/-- Run a sequence of suggestion-flow events. -/
def runSug (st : SugState) (es : List SugEvent) : SugState :=
  es.foldl sugStep st

/-- A rational that is an integer multiple of one tenth (exactly the values
fixed by rounding to one decimal place). -/
def TenthMul (q : ℚ) : Prop := ∃ k : ℤ, q = k / 10

/-- An entry whose four rounded fields are all multiples of one tenth. -/
def Tenth4 (i : FoodItem) : Prop :=
  TenthMul i.protein ∧ TenthMul i.carbs ∧ TenthMul i.fat ∧ TenthMul i.weight

/-- The single-flight invariant of the add workflow: at most one nutrition
lookup outstanding, and the loading flag tracks it. -/
def AddInv (st : AppState) : Prop :=
  st.outstanding ≤ 1 ∧ (st.isLoading = true ↔ st.outstanding = 1)

/-- Entry with protein 0.04: two of them separate the running-rounded fold
of the source from a single final rounding. -/
def eProt : FoodItem :=
  { name := "a", calories := 0, protein := 1 / 25, carbs := 0, fat := 0, weight := 0 }

/-- Structurally valid imported object with an empty name and negative
numbers: the import check looks only at presence and types. -/
def negEntryJson : JValue :=
  .obj [("name", .str ""), ("calories", .num (-5)), ("protein", .num (-1)),
        ("carbs", .num 0), ("fat", .num 0), ("weight", .num (-2))]

/-- The invalid-entry example from the spec: calories is a string. -/
def eggBadJson : JValue :=
  .obj [("name", .str "Egg"), ("calories", .str "78")]

/-- Whether a JSON value is `null` (property access on it throws). -/
def JValue.isNull : JValue → Bool
  | .null => true
  | _ => false

/-- An entry whose four rounded fields are multiples of one tenth. -/
def eggTenth : FoodItem :=
  { name := "Egg", calories := 78, protein := 63 / 10, carbs := 6 / 10,
    fat := 53 / 10, weight := 50 }

/-- Interleaving that issues a lookup for "a", supersedes it with "ap",
completes the "ap" lookup, and still has the "a" lookup in flight. -/
def staleTrace : List SugEvent :=
  [.setQuery "a", .timerFire, .setQuery "ap", .timerFire,
   .response "ap" (some ["Apple", "Apricot"])]

/-! ## Helper lemmas about the import pipeline -/

lemma checkItem_itemToJson (i : FoodItem) : checkItem (itemToJson i) = .ok true := rfl

lemma extractItem_itemToJson (i : FoodItem) : extractItem (itemToJson i) = i := rfl

lemma everyCheck_map_itemToJson (items : List FoodItem) :
    everyCheck (items.map itemToJson) = .ok true := by
  induction items with
  | nil => rfl
  | cons i is ih => simp [everyCheck, checkItem_itemToJson, ih]

lemma everyCheck_ok_of_forall (xs : List JValue)
    (h : ∀ x ∈ xs, checkItem x = .ok true) : everyCheck xs = .ok true := by
  induction xs with
  | nil => rfl
  | cons x xs ih =>
    have hx := h x (by simp)
    simpa [everyCheck, hx] using ih fun y hy => h y (by simp [hy])

lemma checkItem_of_not_null (x : JValue) (hx : x.isNull = false) :
    ∃ b, checkItem x = .ok b := by
  cases x with
  | null => simp [JValue.isNull] at hx
  | bool b => exact ⟨_, rfl⟩
  | num q => exact ⟨_, rfl⟩
  | str s => exact ⟨_, rfl⟩
  | arr l => exact ⟨_, rfl⟩
  | obj l => exact ⟨_, rfl⟩

lemma everyCheck_ok_false (xs : List JValue)
    (hnn : ∀ x ∈ xs, x.isNull = false)
    (hbad : ∃ x ∈ xs, checkItem x ≠ .ok true) : everyCheck xs = .ok false := by
  induction xs with
  | nil => simp at hbad
  | cons x xs ih =>
    obtain ⟨b, hb⟩ := checkItem_of_not_null x (hnn x (by simp))
    cases b with
    | false => simp [everyCheck, hb]
    | true =>
      have hbad2 : ∃ y ∈ xs, checkItem y ≠ .ok true := by
        obtain ⟨y, hy, hyne⟩ := hbad
        rcases List.mem_cons.mp hy with rfl | hy2
        · exact absurd hb hyne
        · exact ⟨y, hy2, hyne⟩
      simpa [everyCheck, hb] using ih (fun y hy => hnn y (by simp [hy])) hbad2

/-! ## C1: export-import round trip -/

/-- C1: deserializing the serialized form of any list of structurally valid
FoodEntry values succeeds and yields the same list in the same order. -/
theorem C1_roundtrip (items : List FoodItem) :
    deserializeJ (some (serialize items)) = .replaced items := by
  simp only [deserializeJ, serialize, everyCheck_map_itemToJson, List.map_map]
  have : items.map (extractItem ∘ itemToJson) = items := by
    simp [Function.comp_def, extractItem_itemToJson]
  rw [this]

/-! ## C9: the import check is presence and types only -/

/-- C9: the import validation checks only the presence and JavaScript types
of the six fields, so any JSON array whose entries all pass the type check
replaces the ledger - even with empty names or negative numbers (the range
constraints are enforced nowhere). -/
theorem C9_type_check_only (st : AppState) (xs : List JValue)
    (h : ∀ x ∈ xs, checkItem x = .ok true) :
    importDiet st (some (.arr xs)) = { st with foodItems := xs.map extractItem } := by
  simp only [importDiet, deserializeJ, everyCheck_ok_of_forall xs h]

/-- Witness: an entry with an empty name and negative calories, protein and
weight passes the check and lands in the ledger. -/
theorem C9_witness :
    importDiet initState (some (.arr [negEntryJson])) =
      { initState with foodItems :=
          [{ name := "", calories := -5, protein := -1, carbs := 0, fat := 0,
             weight := -2 }] } :=
  C9_type_check_only initState [negEntryJson]
    (fun x hx => by rw [List.mem_singleton.mp hx]; rfl)

/-! ## C10: a successful import does not clear a stale error -/

/-- C10: a successful import mutates only the ledger (everything else of the
state - in particular a previously set error message - is untouched), import
never turns a non-empty error into the empty one, and among the modelled
events only the add-food request path (clickAdd, via fetchNutritionInfo)
resets the error to the empty string. -/
theorem C10_stale_error_persists :
    (∀ st content items, deserializeJ content = .replaced items →
       importDiet st content = { st with foodItems := items }) ∧
    (∀ st content, (importDiet st content).error = "" → st.error = "") ∧
    (∀ st e, (addStep st e).error = "" → st.error = "" ∨ e = .clickAdd) ∧
    (∀ st, st.isLoading = false → isBlank st.foodName = false →
       (addStep st .clickAdd).error = "") := by
  refine ⟨?_, ?_, ?_, ?_⟩
  · intro st content items h
    simp only [importDiet, h]
  · intro st content h
    cases hd : deserializeJ content with
    | replaced items => simpa [importDiet, hd] using h
    | parseFailed => simp [importDiet, hd, importParseMsg] at h
    | invalidFormat => simp [importDiet, hd, importInvalidMsg] at h
  · intro st e h
    cases e with
    | clickAdd => exact Or.inr rfl
    | lookupSuccess item =>
      by_cases h0 : st.outstanding = 0 <;> simp [addStep, h0] at h <;> exact Or.inl h
    | lookupFailure =>
      by_cases h0 : st.outstanding = 0
      · simp [addStep, h0] at h; exact Or.inl h
      · simp [addStep, h0, fetchFailMsg] at h
    | editQuery q => simp [addStep] at h; exact Or.inl h
  · intro st h1 h2
    simp [addStep, handleAddFoodStart, h1, h2]

/-- Witness: an import into a state carrying a stale error leaves the error
in place, and a non-blank add-food click resets it. -/
theorem C10_witness :
    importDiet { initState with error := "stale" } (some (.arr [negEntryJson])) =
      { initState with error := "stale",
                       foodItems := [negEntryJson].map extractItem } ∧
    (addStep { initState with foodName := "Egg" } .clickAdd).error = "" :=
  ⟨C10_stale_error_persists.1 _ _ _ rfl,
   C10_stale_error_persists.2.2.2 _ rfl rfl⟩

/-! ## C3: parse failures versus validation failures -/

/-- C3 as stated is false: the input text consisting of a one-element array
whose single entry is JSON null is well-formed and its entry lacks all six
fields, so the claim demands a ValidationError; the source instead throws a
TypeError on property access, lands in the generic catch, and reports the
parse-failure message. The ledger stays unchanged either way. -/
theorem C3_counterexample :
    getField JValue.null "name" = none ∧
    getField JValue.null "calories" = none ∧
    getField JValue.null "protein" = none ∧
    getField JValue.null "carbs" = none ∧
    getField JValue.null "fat" = none ∧
    getField JValue.null "weight" = none ∧
    deserializeJ (some (.arr [JValue.null])) = .parseFailed ∧
    deserializeJ (some (.arr [JValue.null])) ≠ .invalidFormat ∧
    importDiet initState (some (.arr [JValue.null])) =
      { initState with error := importParseMsg } ∧
    importParseMsg ≠ importInvalidMsg := by
  refine ⟨rfl, rfl, rfl, rfl, rfl, rfl, rfl, ?_, rfl, by decide⟩
  intro h
  exact ImportOutcome.noConfusion h

/-- C3 amended: malformed text fails with the ParseError message; a
well-formed array whose entries are all non-null, some entry missing a field
or carrying a wrong-typed one, fails with the ValidationError message; an
array whose check throws (a null entry) falls into the same catch as a parse
failure; on every failure only the error message changes, and the two
messages are distinguishable. -/
theorem C3_amended (st : AppState) :
    (importDiet st none = { st with error := importParseMsg }) ∧
    (∀ xs, (∀ x ∈ xs, x.isNull = false) → (∃ x ∈ xs, checkItem x ≠ .ok true) →
       importDiet st (some (.arr xs)) = { st with error := importInvalidMsg }) ∧
    (∀ xs, everyCheck xs = .error () →
       importDiet st (some (.arr xs)) = { st with error := importParseMsg }) ∧
    importParseMsg ≠ importInvalidMsg := by
  refine ⟨rfl, ?_, ?_, by decide⟩
  · intro xs hnn hbad
    simp only [importDiet, deserializeJ, everyCheck_ok_false xs hnn hbad]
  · intro xs he
    simp only [importDiet, deserializeJ, he]

/-- Witness: the spec example entry (calories is a string) is rejected with
the ValidationError message; malformed text gets the ParseError message. -/
theorem C3_witness :
    importDiet initState (some (.arr [eggBadJson])) =
      { initState with error := importInvalidMsg } ∧
    importDiet initState none = { initState with error := importParseMsg } :=
  ⟨(C3_amended initState).2.1 [eggBadJson] (by decide)
     ⟨eggBadJson, List.mem_singleton.mpr rfl,
      fun h => Bool.noConfusion (Except.ok.inj h)⟩,
   (C3_amended initState).1⟩

/-! ## Helper lemmas about rounding and totals -/

lemma round1_tenthMul {q : ℚ} (h : TenthMul q) : round1 q = q := by
  obtain ⟨k, rfl⟩ := h
  unfold round1
  rw [show (10 : ℚ) * ((k : ℚ) / 10) = (k : ℚ) by field_simp, round_intCast]

lemma tenthMul_add {a b : ℚ} (ha : TenthMul a) (hb : TenthMul b) :
    TenthMul (a + b) := by
  obtain ⟨k, rfl⟩ := ha
  obtain ⟨m, rfl⟩ := hb
  exact ⟨k + m, by push_cast; ring⟩

lemma tenthMul_zero : TenthMul 0 := ⟨0, by norm_num⟩

lemma tenthMul_sum (l : List ℚ) (h : ∀ q ∈ l, TenthMul q) : TenthMul l.sum := by
  induction l with
  | nil => exact tenthMul_zero
  | cons a l ih =>
    simpa using tenthMul_add (h a (by simp)) (ih fun q hq => h q (by simp [hq]))

lemma totals_foldl_calories (items : List FoodItem) :
    ∀ acc, (items.foldl totalsStep acc).calories =
      acc.calories + (items.map FoodItem.calories).sum := by
  induction items with
  | nil => intro acc; simp
  | cons i is ih =>
    intro acc
    simp only [List.foldl_cons, ih, totalsStep, List.map_cons, List.sum_cons]
    ring

lemma totals_foldl_tenth (items : List FoodItem) :
    ∀ acc, (∀ i ∈ items, Tenth4 i) →
      TenthMul acc.protein → TenthMul acc.carbs → TenthMul acc.fat →
      TenthMul acc.weight →
      items.foldl totalsStep acc =
        { calories := acc.calories + (items.map FoodItem.calories).sum
          protein := acc.protein + (items.map FoodItem.protein).sum
          carbs := acc.carbs + (items.map FoodItem.carbs).sum
          fat := acc.fat + (items.map FoodItem.fat).sum
          weight := acc.weight + (items.map FoodItem.weight).sum } := by
  induction items with
  | nil =>
    intro acc _ _ _ _ _
    simp
  | cons i is ih =>
    intro acc hall hp hc hf hw
    obtain ⟨hip, hic, hif, hiw⟩ := hall i (by simp)
    have hstep : totalsStep acc i =
        { calories := acc.calories + i.calories
          protein := acc.protein + i.protein
          carbs := acc.carbs + i.carbs
          fat := acc.fat + i.fat
          weight := acc.weight + i.weight } := by
      unfold totalsStep
      rw [round1_tenthMul (tenthMul_add hp hip), round1_tenthMul (tenthMul_add hc hic),
          round1_tenthMul (tenthMul_add hf hif), round1_tenthMul (tenthMul_add hw hiw)]
    rw [List.foldl_cons, hstep,
        ih _ (fun j hj => hall j (by simp [hj])) (tenthMul_add hp hip)
          (tenthMul_add hc hic) (tenthMul_add hf hif) (tenthMul_add hw hiw)]
    simp only [List.map_cons, List.sum_cons, Totals.mk.injEq]
    refine ⟨by ring, by ring, by ring, by ring, by ring⟩

/-! ## C2: totals round the running sum, not the final sum -/

/-- C2 as stated is false: for two entries with protein 0.04 each, the
source rounds the running sum after each addition and reports protein 0,
while the field-wise sum 0.08 rounded to one decimal place is 0.1. -/
theorem C2_counterexample :
    (totals [eProt, eProt]).protein = 0 ∧
    (specTotals [eProt, eProt]).protein = 1 / 10 ∧
    (totals [eProt, eProt]).protein ≠ (specTotals [eProt, eProt]).protein := by
  have h1 : (totals [eProt, eProt]).protein = 0 := by
    simp only [totals, List.foldl, totalsStep, zeroTotals, eProt]
    norm_num [round1, round_eq]
  have h2 : (specTotals [eProt, eProt]).protein = 1 / 10 := by
    simp only [specTotals, sumTotals, List.map, List.sum_cons, List.sum_nil, eProt]
    norm_num [round1, round_eq]
  refine ⟨h1, h2, ?_⟩
  rw [h1, h2]
  norm_num

/-- C2 amended: the empty ledger gives all-zero totals; calories is always
the exact field-wise sum; and the running-rounded fold agrees with the
round-the-final-sum reading exactly when the protein, carbs, fat and
weight of every entry are already integer multiples of one tenth (then
both equal the plain sums). In general the source rounds the running sum after each
entry, not the final sum. -/
theorem C2_totals_amended :
    totals [] = zeroTotals ∧
    (∀ items, (totals items).calories = (sumTotals items).calories) ∧
    (∀ items, (∀ i ∈ items, Tenth4 i) → totals items = specTotals items) := by
  refine ⟨rfl, ?_, ?_⟩
  · intro items
    simpa [totals, zeroTotals, sumTotals] using totals_foldl_calories items zeroTotals
  · intro items h
    have hrun := totals_foldl_tenth items zeroTotals h tenthMul_zero tenthMul_zero
      tenthMul_zero tenthMul_zero
    have hp : TenthMul (items.map FoodItem.protein).sum :=
      tenthMul_sum _ fun q hq => by
        obtain ⟨i, hi, rfl⟩ := List.mem_map.mp hq; exact (h i hi).1
    have hc : TenthMul (items.map FoodItem.carbs).sum :=
      tenthMul_sum _ fun q hq => by
        obtain ⟨i, hi, rfl⟩ := List.mem_map.mp hq; exact (h i hi).2.1
    have hf : TenthMul (items.map FoodItem.fat).sum :=
      tenthMul_sum _ fun q hq => by
        obtain ⟨i, hi, rfl⟩ := List.mem_map.mp hq; exact (h i hi).2.2.1
    have hw : TenthMul (items.map FoodItem.weight).sum :=
      tenthMul_sum _ fun q hq => by
        obtain ⟨i, hi, rfl⟩ := List.mem_map.mp hq; exact (h i hi).2.2.2
    unfold totals at hrun ⊢
    rw [hrun]
    unfold specTotals sumTotals
    simp only [zeroTotals, zero_add, round1_tenthMul hp, round1_tenthMul hc,
      round1_tenthMul hf, round1_tenthMul hw]

/-- Witness for the agreement case: one entry whose rounded fields are all
multiples of one tenth. -/
theorem C2_witness :
    (∀ i ∈ [eggTenth], Tenth4 i) ∧ totals [eggTenth] = specTotals [eggTenth] := by
  have h : ∀ i ∈ [eggTenth], Tenth4 i := by
    intro i hi
    rw [List.mem_singleton.mp hi]
    exact ⟨⟨63, by norm_num [eggTenth]⟩, ⟨6, by norm_num [eggTenth]⟩,
           ⟨53, by norm_num [eggTenth]⟩, ⟨500, by norm_num [eggTenth]⟩⟩
  exact ⟨h, C2_totals_amended.2.2 [eggTenth] h⟩

/-! ## Helper lemmas about the add workflow -/

lemma addInv_step (st : AppState) (e : AddEvent) (h : AddInv st) :
    AddInv (addStep st e) := by
  obtain ⟨h1, h2⟩ := h
  cases e with
  | clickAdd =>
    by_cases hl : st.isLoading = true
    · have hstep : addStep st .clickAdd = st := by simp [addStep, hl]
      rw [hstep]; exact ⟨h1, h2⟩
    · have hl2 : st.isLoading = false := by simpa using hl
      have hn1 : st.outstanding ≠ 1 := fun he => by
        rw [h2.mpr he] at hl2; cases hl2
      have h0 : st.outstanding = 0 := by omega
      by_cases hb : isBlank st.foodName = true
      · have hstep : addStep st .clickAdd = { st with error := emptyNameMsg } := by
          simp [addStep, hl2, handleAddFoodStart, hb]
        rw [hstep]; exact ⟨h1, h2⟩
      · have hb2 : isBlank st.foodName = false := by simpa using hb
        have hstep : addStep st .clickAdd =
            { st with isLoading := true, error := "",
                      outstanding := st.outstanding + 1 } := by
          simp [addStep, hl2, handleAddFoodStart, hb2]
        rw [hstep]
        constructor
        · simp [h0]
        · simp [h0]
  | lookupSuccess item =>
    by_cases h0 : st.outstanding = 0
    · have hstep : addStep st (.lookupSuccess item) = st := by simp [addStep, h0]
      rw [hstep]; exact ⟨h1, h2⟩
    · have he : st.outstanding = 1 := by omega
      constructor
      · simp [addStep, h0]; omega
      · simp [addStep, h0, he]
  | lookupFailure =>
    by_cases h0 : st.outstanding = 0
    · have hstep : addStep st .lookupFailure = st := by simp [addStep, h0]
      rw [hstep]; exact ⟨h1, h2⟩
    · have he : st.outstanding = 1 := by omega
      constructor
      · simp [addStep, h0]; omega
      · simp [addStep, h0, he]
  | editQuery q =>
    have hstep : addStep st (.editQuery q) = { st with foodName := q } := by
      simp [addStep]
    rw [hstep]; exact ⟨h1, h2⟩

lemma addInv_run (es : List AddEvent) :
    ∀ st, AddInv st → AddInv (runAdd st es) := by
  induction es with
  | nil => intro st h; exact h
  | cons e es ih => intro st h; exact ih _ (addInv_step st e h)

/-! ## C4: provider failure leaves the ledger alone -/

/-- C4: when the nutrition lookup issued by addFood fails, the ledger and
its totals are exactly as before, the error message is the non-empty
user-facing fetch-failure string, and the loading flag is cleared. -/
theorem C4_provider_failure (st : AppState) (h : st.outstanding ≠ 0) :
    (addStep st .lookupFailure).foodItems = st.foodItems ∧
    totals (addStep st .lookupFailure).foodItems = totals st.foodItems ∧
    (addStep st .lookupFailure).error = fetchFailMsg ∧
    fetchFailMsg ≠ "" ∧
    (addStep st .lookupFailure).isLoading = false := by
  refine ⟨?_, ?_, ?_, by decide, ?_⟩ <;> simp [addStep, h]

/-- Witness for C4 at a state with one lookup in flight and one ledger
entry. -/
theorem C4_witness :
    (addStep { initState with isLoading := true, outstanding := 1,
                              foodItems := [eggTenth] } .lookupFailure).foodItems =
      [eggTenth] ∧
    (addStep { initState with isLoading := true, outstanding := 1,
                              foodItems := [eggTenth] } .lookupFailure).error =
      fetchFailMsg ∧
    (addStep { initState with isLoading := true, outstanding := 1,
                              foodItems := [eggTenth] } .lookupFailure).isLoading =
      false := by
  obtain ⟨h1, _, h3, _, h5⟩ := C4_provider_failure
    { initState with isLoading := true, outstanding := 1, foodItems := [eggTenth] }
    (by decide)
  exact ⟨h1, h3, h5⟩

/-! ## C5: single flight -/

/-- C5: while a lookup is in flight (isLoading, which disables the Add
button), a further addFood click is rejected without starting anything, and
along every event sequence from the initial state at most one nutrition
lookup is ever outstanding. -/
theorem C5_single_flight :
    (∀ st, st.isLoading = true → addStep st .clickAdd = st) ∧
    (∀ es, (runAdd initState es).outstanding ≤ 1) := by
  constructor
  · intro st h
    simp [addStep, h]
  · intro es
    exact (addInv_run es initState ⟨by decide, by decide⟩).1

/-- Witness: a click while loading is a no-op, and a double click followed
by a failure response never exceeds one outstanding lookup. -/
theorem C5_witness :
    addStep { initState with isLoading := true, outstanding := 1 } .clickAdd =
      { initState with isLoading := true, outstanding := 1 } ∧
    (runAdd initState
      [.editQuery "Egg", .clickAdd, .clickAdd, .lookupFailure]).outstanding ≤ 1 :=
  ⟨C5_single_flight.1 _ rfl, C5_single_flight.2 _⟩

/-! ## C8: blank names are rejected before any provider call -/

/-- C8: for every name blank after trimming, the add handler sets the
non-empty validation message and returns before any provider call; the
ledger, the loading flag and the outstanding count are untouched. -/
theorem C8_blank_name (st : AppState) (h : isBlank st.foodName = true) :
    handleAddFoodStart st = ({ st with error := emptyNameMsg }, false) ∧
    (handleAddFoodStart st).1.foodItems = st.foodItems ∧
    (handleAddFoodStart st).1.isLoading = st.isLoading ∧
    (handleAddFoodStart st).1.outstanding = st.outstanding ∧
    emptyNameMsg ≠ "" := by
  have he : handleAddFoodStart st = ({ st with error := emptyNameMsg }, false) := by
    simp [handleAddFoodStart, h]
  refine ⟨he, ?_, ?_, ?_, by decide⟩ <;> rw [he]

/-- Witness for C8 at a whitespace-only name. -/
theorem C8_witness :
    handleAddFoodStart { initState with foodName := "   " } =
      ({ initState with foodName := "   ", error := emptyNameMsg }, false) ∧
    emptyNameMsg ≠ "" := by
  obtain ⟨h1, _, _, _, h5⟩ :=
    C8_blank_name { initState with foodName := "   " } (by decide)
  exact ⟨h1, h5⟩

/-! ## C6: stale suggestion responses do overwrite newer state -/

/-- C6 as stated is false: after querying "a", letting its lookup go out,
superseding it with "ap" and receiving the "ap" suggestions, the
late-arriving response of the stale "a" lookup still overwrites the
suggestion state - the source cancels only the debounce timer, never the
effect of an in-flight lookup. -/
theorem C6_counterexample :
    (runSug initSug staleTrace).foodName = "ap" ∧
    (runSug initSug staleTrace).suggestions = ["Apple", "Apricot"] ∧
    (runSug initSug staleTrace).inFlight = ["a"] ∧
    (runSug initSug (staleTrace ++ [.response "a" (some ["Avocado"])])).foodName =
      "ap" ∧
    (runSug initSug (staleTrace ++ [.response "a" (some ["Avocado"])])).suggestions =
      ["Avocado"] := by
  refine ⟨rfl, rfl, rfl, rfl, rfl⟩

/-- C6 amended: every new query change replaces (hence cancels) the
outstanding debounce timer, but an already-issued lookup is not cancelled:
its response overwrites the suggestion state unconditionally, whatever the
current query is. -/
theorem C6_amended :
    (∀ st q, (sugStep st (.setQuery q)).pendingTimer = some q) ∧
    (∀ st q names, q ∈ st.inFlight →
       (sugStep st (.response q (some names))).suggestions = names ∧
       (sugStep st (.response q (some names))).showSuggestions = true) := by
  constructor
  · intro st q
    rfl
  · intro st q names hq
    constructor <;> simp [sugStep, hq]

/-- Witness: the new query "ap" replaces the timer, and the response of the
stale in-flight query "a" overwrites the suggestions. -/
theorem C6_amended_witness :
    (sugStep initSug (.setQuery "ap")).pendingTimer = some "ap" ∧
    (sugStep { initSug with foodName := "ap", inFlight := ["a"] }
        (.response "a" (some ["Avocado"]))).suggestions = ["Avocado"] :=
  ⟨C6_amended.1 initSug "ap",
   (C6_amended.2 { initSug with foodName := "ap", inFlight := ["a"] } "a"
      ["Avocado"] (by simp)).1⟩

/-! ## C7: two query changes inside one debounce window coalesce -/

/-- C7: from any suggestion-flow state, editing the query to "a" and then
to "ap" before the debounce timer fires, then letting the timer fire,
issues exactly one suggestion lookup, and it is for the final query "ap". -/
theorem C7_debounce_single_lookup (st : SugState) :
    (runSug st [.setQuery "a", .setQuery "ap", .timerFire]).issuedLog =
      st.issuedLog ++ ["ap"] := by
  rfl
